import Mathlib

/-!
Verification of the FFX filter-chain builder (`src/ffx.py`).

This file is a shallow embedding of the filter-chain assembly logic of
`ffx.py`: the configuration value model, the nine stage builders
(`build_eq`, `build_color_channel`, `build_unsharp`, `build_extra_sharpen`,
`build_deblur`, `build_denoise`, `build_blur`, `build_grain`,
`build_custom`), the fragment normalizer `add_filter`, and the chain
assembly performed inline in `main` (`buildFilters` / `filter_chain`).

Modelling conventions:
* YAML/Python values are modelled by the inductive `Val`.  Python `float`
  values are modelled as exact decimal numbers (`Dec`, a significand and a
  power-of-ten exponent): every float literal appearing in a configuration
  is a decimal literal, and for such values Python's `repr`/`str` prints
  the decimal back (we do not model binary-rounding corner cases or
  scientific notation for extreme magnitudes, which no claim exercises).
* Python dicts are modelled as association lists (`ValMap`) with
  first-match lookup; `dict.get(k, d)` is `ValMap.getD`.
* Code paths that raise in Python (attribute access on a non-dict section,
  `range` of a non-integer, `",".join` of a non-iterable or of a list with
  non-string members) are modelled with `Except String`, the error string
  naming the Python exception class.
* Python `str.strip()` / `str.rstrip(",")` are `pyStrip` / `rstripComma`.
* String `repr` of `str` values inside containers is modelled without
  escape sequences (no claim exercises quotes or backslashes in values).
-/

/-- An exact decimal number `m / 10 ^ e`, modelling a Python `float`
written as a decimal literal. -/
structure Dec where
  m : Int
  e : Nat
deriving DecidableEq, Repr

/-- Zero-padding used when printing the fractional part of a decimal. -/
def padZeros (k : Nat) (s : String) : String :=
  String.mk (List.replicate (k - s.length) '0') ++ s

/-- Python `repr`/`str` of the float `d.m / 10 ^ d.e` (positional decimal
notation; integral floats print with a trailing `.0` as Python does). -/
def renderDec (d : Dec) : String :=
  let n := d.m.natAbs
  let sign := if d.m < 0 then "-" else ""
  if d.e = 0 then
    sign ++ toString n ++ ".0"
  else
    let p := 10 ^ d.e
    let fs := toString (n % p)
    sign ++ toString (n / p) ++ "." ++ padZeros d.e fs

mutual

/-- A parsed YAML/Python value: bool, int, float, string, list or dict. -/
inductive Val where
  | vBool : Bool → Val
  | vInt : Int → Val
  | vFloat : Dec → Val
  | vStr : String → Val
  | vList : ValList → Val
  | vMap : ValMap → Val
deriving DecidableEq

/-- A Python list of values. -/
inductive ValList where
  | nil : ValList
  | cons : Val → ValList → ValList
deriving DecidableEq

/-- A Python dict with string keys, as an association list
(first-match lookup; keys are unique in any dict produced by YAML). -/
inductive ValMap where
  | nil : ValMap
  | cons : String → Val → ValMap → ValMap
deriving DecidableEq

end

/-- `dict.get(key)` (returning `none` when absent). -/
def ValMap.find : ValMap → String → Option Val
  | .nil, _ => none
  | .cons k v t, key => if k = key then some v else t.find key

/-- `dict.get(key, default)`. -/
def ValMap.getD (m : ValMap) (k : String) (d : Val) : Val :=
  match m.find k with
  | some v => v
  | none => d

/-- Python truthiness of a value (`bool(v)`). -/
def truthy : Val → Bool
  | .vBool b => b
  | .vInt n => !(n == 0)
  | .vFloat d => !(d.m == 0)
  | .vStr s => !(s == "")
  | .vList .nil => false
  | .vList _ => true
  | .vMap .nil => false
  | .vMap _ => true

/-- Python `v == 1.0`: numeric equality across `bool`/`int`/`float`
(`True == 1.0` holds in Python); values of other types compare unequal. -/
def numEqOne : Val → Bool
  | .vBool b => b
  | .vInt n => n == 1
  | .vFloat d => d.m == (10 : Int) ^ d.e
  | _ => false

/-- Python `v == s` for a string literal `s`: true exactly when `v` is that
string. -/
def isStrEq (v : Val) (s : String) : Bool :=
  match v with
  | .vStr t => t == s
  | _ => false

mutual

/-- Python `repr` of a value (strings quoted; no escape modelling). -/
def reprVal : Val → String
  | .vBool b => if b then "True" else "False"
  | .vInt n => toString n
  | .vFloat d => renderDec d
  | .vStr s => "'" ++ s ++ "'"
  | .vList l => "[" ++ reprItems l ++ "]"
  | .vMap m => "\x7b" ++ reprEntries m ++ "\x7d"

/-- Comma-separated `repr`s of the items of a list. -/
def reprItems : ValList → String
  | .nil => ""
  | .cons v .nil => reprVal v
  | .cons v t => reprVal v ++ ", " ++ reprItems t

/-- Comma-separated `'key': repr` pairs of a dict. -/
def reprEntries : ValMap → String
  | .nil => ""
  | .cons k v .nil => "'" ++ k ++ "': " ++ reprVal v
  | .cons k v t => "'" ++ k ++ "': " ++ reprVal v ++ ", " ++ reprEntries t

end

/-- Python `str` of a value, as interpolated by an f-string: identical to
`repr` except that strings print unquoted. -/
def render (v : Val) : String :=
  match v with
  | .vStr s => s
  | v => reprVal v

/-- The keys of a dict, in order (iterating a dict yields its keys). -/
def keysOf : ValMap → List String
  | .nil => []
  | .cons k _ t => k :: keysOf t

/-- The members of a list value as strings, or a `TypeError` when some
member is not a string (as `",".join` would raise). -/
def strMembers : ValList → Except String (List String)
  | .nil => .ok []
  | .cons (.vStr s) t => (strMembers t).map (s :: ·)
  | .cons _ _ => .error "TypeError"

/-- Python `",".join(v)`: joins a list of strings, the characters of a
string, or the keys of a dict; raises `TypeError` otherwise. -/
def pyJoinComma (v : Val) : Except String String :=
  match v with
  | .vStr s => .ok (String.intercalate "," (s.toList.map String.singleton))
  | .vList l => (strMembers l).map (String.intercalate ",")
  | .vMap m => .ok (String.intercalate "," (keysOf m))
  | _ => .error "TypeError"

/-- `cfg.get(name, {})` followed by attribute access on the result:
absent gives the empty dict, a dict gives that dict, and any other value
raises `AttributeError` at the first `.get` on it. -/
def getSection (cfg : ValMap) (name : String) : Except String ValMap :=
  match cfg.find name with
  | none => .ok .nil
  | some (.vMap m) => .ok m
  | some _ => .error "AttributeError"

/-- Python `range(v)` argument coercion: `int` (clamped below by 0 via the
empty range) and `bool` work; any other type raises `TypeError`. -/
def asRangeArg : Val → Except String Nat
  | .vInt n => .ok n.toNat
  | .vBool b => .ok (if b then 1 else 0)
  | _ => .error "TypeError"

/-! ## Stage builders (`ffx.py` lines 29–139) -/

/-- `build_eq` (ffx.py:29). -/
def build_eq (cfg : ValMap) : Except String (Option String) :=
  match getSection cfg "eq" with
  | .error e => .error e
  | .ok c =>
    if !truthy (c.getD "enabled" (.vBool false)) then .ok none
    else .ok (some ("eq=brightness=" ++ render (c.getD "brightness" (.vFloat ⟨0, 1⟩))
      ++ ":contrast=" ++ render (c.getD "contrast" (.vFloat ⟨10, 1⟩))
      ++ ":gamma=" ++ render (c.getD "gamma" (.vFloat ⟨10, 1⟩))
      ++ ":saturation=" ++ render (c.getD "saturation" (.vFloat ⟨10, 1⟩))))

/-- `build_unsharp` (ffx.py:43). -/
def build_unsharp (cfg : ValMap) : Except String (Option String) :=
  match getSection cfg "sharpen" with
  | .error e => .error e
  | .ok c =>
    if !truthy (c.getD "enabled" (.vBool false)) then .ok none
    else
      match getSection c "main" with
      | .error e => .error e
      | .ok m => .ok (some ("unsharp="
          ++ render (m.getD "msize_x" (.vInt 5)) ++ ":"
          ++ render (m.getD "msize_y" (.vInt 5)) ++ ":"
          ++ render (m.getD "amount" (.vFloat ⟨6, 1⟩)) ++ ":"
          ++ render (m.getD "msize_x_chroma" (.vInt 5)) ++ ":"
          ++ render (m.getD "msize_y_chroma" (.vInt 5)) ++ ":"
          ++ render (m.getD "amount_chroma" (.vFloat ⟨1, 1⟩))))

/-- `build_extra_sharpen` (ffx.py:56). -/
def build_extra_sharpen (cfg : ValMap) : Except String (Option String) :=
  match getSection cfg "sharpen" with
  | .error e => .error e
  | .ok c =>
    if !truthy (c.getD "extra_enabled" (.vBool false)) then .ok none
    else
      match getSection c "extra" with
      | .error e => .error e
      | .ok ex => .ok (some ("unsharp="
          ++ render (ex.getD "msize" (.vInt 3)) ++ ":"
          ++ render (ex.getD "msize" (.vInt 3)) ++ ":"
          ++ render (ex.getD "amount" (.vFloat ⟨4, 1⟩))))

/-- `build_deblur` (ffx.py:68). -/
def build_deblur (cfg : ValMap) : Except String (Option String) :=
  match getSection cfg "deblur" with
  | .error e => .error e
  | .ok c =>
    if !truthy (c.getD "enabled" (.vBool false)) then .ok none
    else
      let method := c.getD "method" (.vStr "convolution")
      if isStrEq method "convolution" then
        .ok (some ("convolution='"
          ++ render (c.getD "kernel" (.vStr "-1 -1 -1 -1 9 -1 -1 -1 -1")) ++ "'"))
      else if isStrEq method "unsharp_multi" then
        match asRangeArg (c.getD "passes" (.vInt 2)) with
        | .error e => .error e
        | .ok passes =>
          let amount := c.getD "amount" (.vFloat ⟨10, 1⟩)
          let msize := c.getD "msize" (.vInt 5)
          .ok (some (String.intercalate "," (List.replicate passes
            ("unsharp=" ++ render msize ++ ":" ++ render msize ++ ":" ++ render amount))))
      else .ok none

/-- `build_denoise` (ffx.py:93). -/
def build_denoise (cfg : ValMap) : Except String (Option String) :=
  match getSection cfg "denoise" with
  | .error e => .error e
  | .ok c =>
    if !truthy (c.getD "enabled" (.vBool false)) then .ok none
    else .ok (some ("hqdn3d="
      ++ render (c.getD "luma" (.vFloat ⟨20, 1⟩)) ++ ":"
      ++ render (c.getD "chroma" (.vFloat ⟨15, 1⟩)) ++ ":"
      ++ render (c.getD "time" (.vFloat ⟨30, 1⟩)) ++ ":"
      ++ render (c.getD "chroma_time" (.vFloat ⟨0, 1⟩))))

/-- `build_blur` (ffx.py:107). -/
def build_blur (cfg : ValMap) : Except String (Option String) :=
  match getSection cfg "blur" with
  | .error e => .error e
  | .ok c =>
    if !truthy (c.getD "enabled" (.vBool false)) then .ok none
    else .ok (some ("boxblur=" ++ render (c.getD "radius" (.vInt 2))))

/-- `build_grain` (ffx.py:116). -/
def build_grain (cfg : ValMap) : Except String (Option String) :=
  match getSection cfg "grain" with
  | .error e => .error e
  | .ok c =>
    if !truthy (c.getD "enabled" (.vBool false)) then .ok none
    else .ok (some ("noise=alls=" ++ render (c.getD "strength" (.vInt 4))
      ++ ":allf=" ++ render (c.getD "frequency" (.vStr "p"))))

/-- `build_color_channel` (ffx.py:123). -/
def build_color_channel (cfg : ValMap) : Except String (Option String) :=
  match getSection cfg "color_channels" with
  | .error e => .error e
  | .ok cc =>
    if numEqOne (cc.getD "red" (.vFloat ⟨10, 1⟩))
        && numEqOne (cc.getD "green" (.vFloat ⟨10, 1⟩))
        && numEqOne (cc.getD "blue" (.vFloat ⟨10, 1⟩)) then .ok none
    else .ok (some ("eq=red_mul=" ++ render (cc.getD "red" (.vFloat ⟨10, 1⟩))
      ++ ":green_mul=" ++ render (cc.getD "green" (.vFloat ⟨10, 1⟩))
      ++ ":blue_mul=" ++ render (cc.getD "blue" (.vFloat ⟨10, 1⟩))))

/-- `build_custom` (ffx.py:135): `cfg.get("custom_filters", [])`; falsy
(absent, empty, `0`, …) yields no stage; otherwise `",".join` of it. -/
def build_custom (cfg : ValMap) : Except String (Option String) :=
  match cfg.find "custom_filters" with
  | none => .ok none
  | some v =>
    if truthy v then (pyJoinComma v).map some else .ok none

/-! ## Fragment normalization and chain assembly (`ffx.py` lines 18–23, 157–169) -/

/-- Python whitespace characters stripped by `str.strip()` (ASCII). -/
def isPySpace (c : Char) : Bool :=
  c == ' ' || c == '\t' || c == '\n' || c == '\x0b' || c == '\x0c' || c == '\r'

/-- Python `s.strip()`: remove leading and trailing whitespace. -/
def pyStrip (s : String) : String :=
  String.mk (((s.toList.dropWhile isPySpace).reverse.dropWhile isPySpace).reverse)

/-- Python `s.rstrip(",")`: remove every trailing comma. -/
def rstripComma (s : String) : String :=
  String.mk ((s.toList.reverse.dropWhile (fun c => c == ',')).reverse)

/-- `add_filter` (ffx.py:18): skip a falsy fragment, strip whitespace and
trailing commas, and append only what remains non-empty. -/
def add_filter (filters : List String) (frag : Option String) : List String :=
  match frag with
  | none => filters
  | some s =>
    if s = "" then filters
    else
      let t := rstripComma (pyStrip s)
      if t = "" then filters else filters ++ [t]

/-- What `add_filter` would append for a given builder output: `none` when
the fragment is absent or normalizes to empty, otherwise the normalized
fragment. -/
def normFrag (o : Option String) : Option String :=
  match o with
  | none => none
  | some s =>
    if s = "" then none
    else
      let t := rstripComma (pyStrip s)
      if t = "" then none else some t

/-- The catalog order of the nine stage builders (ffx.py:159–167):
equalize, color-channel-mix, sharpen-main, sharpen-extra, deblur,
denoise, blur, grain, custom. -/
def catalog : List (ValMap → Except String (Option String)) :=
  [build_eq, build_color_channel, build_unsharp, build_extra_sharpen,
   build_deblur, build_denoise, build_blur, build_grain, build_custom]

/-- One `add_filter` step over an `Except`-valued builder output. -/
def stepFilter (acc : Except String (List String))
    (o : Except String (Option String)) : Except String (List String) :=
  match acc with
  | .error e => .error e
  | .ok fs =>
    match o with
    | .error e => .error e
    | .ok frag => .ok (add_filter fs frag)

/-- The filter accumulation of `main` (ffx.py:157–167): the nine builders
called in catalog order, each fed through `add_filter`. -/
def buildFilters (cfg : ValMap) : Except String (List String) :=
  (catalog.map (fun b => b cfg)).foldl stepFilter (.ok [])

/-- `filter_chain = ",".join(filters)` (ffx.py:169). -/
def filter_chain (cfg : ValMap) : Except String String :=
  match buildFilters cfg with
  | .error e => .error e
  | .ok fs => .ok (String.intercalate "," fs)

/-- Collect the raw outputs of a list of builders, stopping at the first
error (as `main` would). -/
def collectOutputs (bs : List (ValMap → Except String (Option String)))
    (cfg : ValMap) : Except String (List (Option String)) :=
  match bs with
  | [] => .ok []
  | b :: t =>
    match b cfg with
    | .error e => .error e
    | .ok o =>
      match collectOutputs t cfg with
      | .error e => .error e
      | .ok os => .ok (o :: os)

/-- The raw outputs of the nine stage builders, in catalog order. -/
def stageOutputs (cfg : ValMap) : Except String (List (Option String)) :=
  collectOutputs catalog cfg

/-- Convenience constructor for dict literals. -/
def vmap : List (String × Val) → ValMap
  | [] => .nil
  | (k, v) :: t => .cons k v (vmap t)

/-- Convenience constructor for list literals. -/
def vlist : List Val → ValList
  | [] => .nil
  | v :: t => .cons v (vlist t)

/-! ## Predicates used to state the claims -/

/-- The stage flag `cfg[sect][flag]` is falsy or absent: the section is
absent, or it is a dict whose flag entry defaults to `False`/is falsy.
(A present section of non-dict type is not "flag absent": the program
raises on it.) -/
def flagOff (cfg : ValMap) (sect flag : String) : Bool :=
  match cfg.find sect with
  | none => true
  | some (.vMap m) => !truthy (m.getD flag (.vBool false))
  | some _ => false

/-- All three `color_channels` values equal `1.0` (numerically), the
section being absent counting as all-default. -/
def channelsOne (cfg : ValMap) : Bool :=
  match cfg.find "color_channels" with
  | none => true
  | some (.vMap cc) =>
    numEqOne (cc.getD "red" (.vFloat ⟨10, 1⟩))
      && numEqOne (cc.getD "green" (.vFloat ⟨10, 1⟩))
      && numEqOne (cc.getD "blue" (.vFloat ⟨10, 1⟩))
  | some _ => false

/-- `custom_filters` is absent or falsy (in particular, the empty list). -/
def customOff (cfg : ValMap) : Bool :=
  match cfg.find "custom_filters" with
  | none => true
  | some v => !truthy v

/-- The character list does not start with a comma. -/
def noLeadC : List Char → Bool
  | [] => true
  | c :: _ => !(c == ',')

/-- The character list does not end with a comma. -/
def noTrailC (l : List Char) : Bool :=
  noLeadC l.reverse

/-- The character list contains no two adjacent commas. -/
def noDouble : List Char → Bool
  | [] => true
  | c :: t =>
    (match t with
     | [] => true
     | d :: _ => !(c == ',' && d == ',')) && noDouble t

/-- The string has no leading, trailing, or doubled comma separator. -/
def okSeps (s : String) : Bool :=
  noLeadC s.toList && noTrailC s.toList && noDouble s.toList

/-- The characters contributed after the first fragment when joining with
commas: a comma before each further fragment. -/
def tailC : List String → List Char
  | [] => []
  | a :: as => ',' :: a.toList ++ tailC as

/-- The characters of `",".join fs`. -/
def chainC : List String → List Char
  | [] => []
  | a :: as => a.toList ++ tailC as

/-! ## Structural lemmas about the assembler -/

/-- `add_filter` appends exactly the normalized fragment (when any). -/
theorem add_filter_eq (fs : List String) (o : Option String) :
    add_filter fs o = fs ++ (normFrag o).toList := by
  cases o with
  | none => simp [add_filter, normFrag]
  | some s =>
    simp only [add_filter, normFrag]
    by_cases hs : s = ""
    · simp [hs]
    · simp only [hs, if_false]
      by_cases ht : rstripComma (pyStrip s) = ""
      · simp [ht]
      · simp [ht]

theorem filterMap_cons_toList {α β : Type} (f : α → Option β) (a : α) (l : List α) :
    List.filterMap f (a :: l) = (f a).toList ++ List.filterMap f l := by
  cases h : f a <;> simp [List.filterMap_cons, h]

theorem foldl_stepFilter_error (l : List (Except String (Option String))) (e : String) :
    l.foldl stepFilter (.error e) = .error e := by
  induction l with
  | nil => rfl
  | cons a t ih => simp [List.foldl, stepFilter, ih]

/-- Relating the sequential `add_filter` fold to the list of raw builder
outputs: the accumulated filters are the base ones followed by the
normalized non-absent outputs, in builder order. -/
theorem collect_fold (bs : List (ValMap → Except String (Option String)))
    (cfg : ValMap) :
    ∀ fs0 fs, (bs.map (fun b => b cfg)).foldl stepFilter (.ok fs0) = .ok fs →
      ∃ outs, collectOutputs bs cfg = .ok outs ∧
        fs = fs0 ++ outs.filterMap normFrag := by
  induction bs with
  | nil =>
    intro fs0 fs h
    simp [List.foldl] at h
    exact ⟨[], rfl, by simp [h, List.filterMap]⟩
  | cons b t ih =>
    intro fs0 fs h
    simp only [List.map_cons, List.foldl_cons] at h
    cases hb : b cfg with
    | error e =>
      rw [hb] at h
      simp only [stepFilter] at h
      rw [foldl_stepFilter_error] at h
      exact absurd h (by simp)
    | ok o =>
      rw [hb] at h
      simp only [stepFilter] at h
      obtain ⟨outs, h1, h2⟩ := ih (add_filter fs0 o) fs h
      refine ⟨o :: outs, ?_, ?_⟩
      · simp [collectOutputs, hb, h1]
      · rw [h2, add_filter_eq, filterMap_cons_toList]
        simp

/-- `buildFilters` produces exactly the normalized non-absent stage
outputs, in catalog order. -/
theorem buildFilters_ok {cfg : ValMap} {fs : List String}
    (h : buildFilters cfg = .ok fs) :
    ∃ outs, stageOutputs cfg = .ok outs ∧ fs = outs.filterMap normFrag := by
  obtain ⟨outs, h1, h2⟩ := collect_fold catalog cfg [] fs h
  exact ⟨outs, h1, by simpa using h2⟩

/-- C1: for every configuration, the assembled chain is the comma-join of
the normalized non-absent stage outputs taken in the fixed catalog order
(equalize, color-channel-mix, sharpen-main, sharpen-extra, deblur,
denoise, blur, grain, custom) — stages are never reordered, whatever the
configuration's content or key order. -/
theorem chain_is_catalog_order (cfg : ValMap) (chain : String)
    (h : filter_chain cfg = .ok chain) :
    ∃ outs, stageOutputs cfg = .ok outs ∧
      chain = String.intercalate "," (outs.filterMap normFrag) := by
  unfold filter_chain at h
  cases hb : buildFilters cfg with
  | error e => rw [hb] at h; exact absurd h (by simp)
  | ok fs =>
    rw [hb] at h
    obtain ⟨outs, h1, h2⟩ := buildFilters_ok hb
    refine ⟨outs, h1, ?_⟩
    cases h
    rw [h2]

theorem chain_is_catalog_order_witness :
    ∃ outs,
      stageOutputs (vmap [("blur", .vMap (vmap [("enabled", .vBool true)])),
        ("grain", .vMap (vmap [("enabled", .vBool true)]))]) = .ok outs ∧
      "boxblur=2,noise=alls=4:allf=p" =
        String.intercalate "," (outs.filterMap normFrag) :=
  chain_is_catalog_order
    (vmap [("blur", .vMap (vmap [("enabled", .vBool true)])),
      ("grain", .vMap (vmap [("enabled", .vBool true)]))])
    "boxblur=2,noise=alls=4:allf=p" (by rfl)

/-! ## Disabled-stage lemmas -/

theorem flagOff_section {cfg : ValMap} {sect flag : String}
    (h : flagOff cfg sect flag = true) :
    ∃ c, getSection cfg sect = .ok c ∧
      truthy (c.getD flag (.vBool false)) = false := by
  unfold flagOff at h
  unfold getSection
  cases hf : cfg.find sect with
  | none =>
    refine ⟨.nil, rfl, ?_⟩
    cases hkey : ValMap.find .nil flag <;> simp [ValMap.getD, hkey, truthy]
    · cases hkey
  | some v =>
    rw [hf] at h
    cases v <;> simp_all

theorem build_eq_off {cfg : ValMap} (h : flagOff cfg "eq" "enabled" = true) :
    build_eq cfg = .ok none := by
  obtain ⟨c, h1, h2⟩ := flagOff_section h
  unfold build_eq
  rw [h1]
  simp [h2]

theorem build_unsharp_off {cfg : ValMap}
    (h : flagOff cfg "sharpen" "enabled" = true) :
    build_unsharp cfg = .ok none := by
  obtain ⟨c, h1, h2⟩ := flagOff_section h
  unfold build_unsharp
  rw [h1]
  simp [h2]

theorem build_extra_sharpen_off {cfg : ValMap}
    (h : flagOff cfg "sharpen" "extra_enabled" = true) :
    build_extra_sharpen cfg = .ok none := by
  obtain ⟨c, h1, h2⟩ := flagOff_section h
  unfold build_extra_sharpen
  rw [h1]
  simp [h2]

theorem build_deblur_off {cfg : ValMap}
    (h : flagOff cfg "deblur" "enabled" = true) :
    build_deblur cfg = .ok none := by
  obtain ⟨c, h1, h2⟩ := flagOff_section h
  unfold build_deblur
  rw [h1]
  simp [h2]

theorem build_denoise_off {cfg : ValMap}
    (h : flagOff cfg "denoise" "enabled" = true) :
    build_denoise cfg = .ok none := by
  obtain ⟨c, h1, h2⟩ := flagOff_section h
  unfold build_denoise
  rw [h1]
  simp [h2]

theorem build_blur_off {cfg : ValMap}
    (h : flagOff cfg "blur" "enabled" = true) :
    build_blur cfg = .ok none := by
  obtain ⟨c, h1, h2⟩ := flagOff_section h
  unfold build_blur
  rw [h1]
  simp [h2]

theorem build_grain_off {cfg : ValMap}
    (h : flagOff cfg "grain" "enabled" = true) :
    build_grain cfg = .ok none := by
  obtain ⟨c, h1, h2⟩ := flagOff_section h
  unfold build_grain
  rw [h1]
  simp [h2]

theorem build_color_channel_off {cfg : ValMap}
    (h : channelsOne cfg = true) :
    build_color_channel cfg = .ok none := by
  unfold channelsOne at h
  unfold build_color_channel getSection
  cases hf : cfg.find "color_channels" with
  | none => simp [ValMap.getD, ValMap.find, numEqOne]
  | some v =>
    rw [hf] at h
    cases v <;> simp_all

theorem build_custom_off {cfg : ValMap} (h : customOff cfg = true) :
    build_custom cfg = .ok none := by
  unfold customOff at h
  unfold build_custom
  cases hf : cfg.find "custom_filters" with
  | none => rfl
  | some v =>
    rw [hf] at h
    simp_all

/-- C2: when every stage's enabled flag is falsy or absent, all three
color-channel values equal 1.0 (or the section is absent), and
`custom_filters` is empty or absent, the assembled filter chain is
exactly the empty string. -/
theorem chain_empty_when_all_off (cfg : ValMap)
    (h1 : flagOff cfg "eq" "enabled" = true)
    (h2 : flagOff cfg "sharpen" "enabled" = true)
    (h3 : flagOff cfg "sharpen" "extra_enabled" = true)
    (h4 : flagOff cfg "deblur" "enabled" = true)
    (h5 : flagOff cfg "denoise" "enabled" = true)
    (h6 : flagOff cfg "blur" "enabled" = true)
    (h7 : flagOff cfg "grain" "enabled" = true)
    (h8 : channelsOne cfg = true)
    (h9 : customOff cfg = true) :
    filter_chain cfg = .ok "" := by
  have e1 := build_eq_off h1
  have e2 := build_color_channel_off h8
  have e3 := build_unsharp_off h2
  have e4 := build_extra_sharpen_off h3
  have e5 := build_deblur_off h4
  have e6 := build_denoise_off h5
  have e7 := build_blur_off h6
  have e8 := build_grain_off h7
  have e9 := build_custom_off h9
  unfold filter_chain buildFilters catalog
  simp only [List.map_cons, List.map_nil, List.foldl_cons, List.foldl_nil,
    e1, e2, e3, e4, e5, e6, e7, e8, e9, stepFilter, add_filter]
  rfl

theorem chain_empty_when_all_off_witness :
    filter_chain (vmap [("eq", .vMap (vmap [("enabled", .vBool false)])),
      ("color_channels", .vMap (vmap [("red", .vInt 1)])),
      ("custom_filters", .vList .nil)]) = .ok "" :=
  chain_empty_when_all_off _ (by rfl) (by rfl) (by rfl) (by rfl) (by rfl)
    (by rfl) (by rfl) (by rfl) (by rfl)

/-- C3: the color-channel-mix builder yields no stage exactly when red,
green and blue are all (numerically) 1.0 — including the absent-section
case — and otherwise yields `eq=red_mul=R:green_mul=G:blue_mul=B` with
the supplied values rendered literally. -/
theorem color_channel_cases (cfg cc : ValMap)
    (h : getSection cfg "color_channels" = .ok cc) :
    build_color_channel cfg =
      .ok (if numEqOne (cc.getD "red" (.vFloat ⟨10, 1⟩))
            && numEqOne (cc.getD "green" (.vFloat ⟨10, 1⟩))
            && numEqOne (cc.getD "blue" (.vFloat ⟨10, 1⟩)) then none
        else some ("eq=red_mul=" ++ render (cc.getD "red" (.vFloat ⟨10, 1⟩))
          ++ ":green_mul=" ++ render (cc.getD "green" (.vFloat ⟨10, 1⟩))
          ++ ":blue_mul=" ++ render (cc.getD "blue" (.vFloat ⟨10, 1⟩)))) := by
  unfold build_color_channel
  rw [h]
  split <;> simp_all
  split <;> rfl

theorem color_channel_cases_witness :
    build_color_channel (vmap [("color_channels",
        .vMap (vmap [("red", .vFloat ⟨5, 1⟩)]))]) =
      .ok (some "eq=red_mul=0.5:green_mul=1.0:blue_mul=1.0") := by
  have h := color_channel_cases
    (vmap [("color_channels", .vMap (vmap [("red", .vFloat ⟨5, 1⟩)]))])
    (vmap [("red", .vFloat ⟨5, 1⟩)]) (by rfl)
  rw [h]
  rfl

/-- C5: a fragment handed to `add_filter` is normalized by stripping
surrounding whitespace and then all trailing commas; if the normalized
fragment is non-empty it is appended as one element, and if it is empty
the fragment is dropped with the accumulated list left unchanged (so no
stray separator can arise from it). -/
theorem add_filter_trims (fs : List String) (s : String) :
    (rstripComma (pyStrip s) ≠ "" →
      add_filter fs (some s) = fs ++ [rstripComma (pyStrip s)]) ∧
    (rstripComma (pyStrip s) = "" → add_filter fs (some s) = fs) := by
  constructor <;> intro h
  · by_cases hs : s = ""
    · subst hs
      exact absurd rfl h
    · simp [add_filter, hs, h]
  · by_cases hs : s = ""
    · simp [add_filter, hs]
    · simp [add_filter, hs, h]

theorem add_filter_trims_witness :
    (rstripComma (pyStrip "  eq=foo,,  ") ≠ "" ∧
      add_filter ["a"] (some "  eq=foo,,  ") = ["a", "eq=foo"]) ∧
    (rstripComma (pyStrip " ,,, ") = "" ∧
      add_filter ["a"] (some " ,,, ") = ["a"]) :=
  ⟨⟨by decide, by
      have h := (add_filter_trims ["a"] "  eq=foo,,  ").1 (by decide)
      simpa using h⟩,
   ⟨by decide, (add_filter_trims ["a"] " ,,, ").2 (by decide)⟩⟩

/-- C6: with `deblur.enabled` truthy and `deblur.method` a string that is
neither `"convolution"` nor `"unsharp_multi"`, the deblur builder
contributes nothing to the chain and signals no error. -/
theorem deblur_unknown_method (cfg c : ValMap) (m : String)
    (hs : getSection cfg "deblur" = .ok c)
    (he : truthy (c.getD "enabled" (.vBool false)) = true)
    (hm : c.getD "method" (.vStr "convolution") = .vStr m)
    (h1 : m ≠ "convolution") (h2 : m ≠ "unsharp_multi") :
    build_deblur cfg = .ok none := by
  unfold build_deblur
  rw [hs]
  simp [he, hm, isStrEq, h1, h2]

theorem deblur_unknown_method_witness :
    build_deblur (vmap [("deblur", .vMap (vmap [("enabled", .vBool true),
      ("method", .vStr "unknown")]))]) = .ok none :=
  deblur_unknown_method
    (vmap [("deblur", .vMap (vmap [("enabled", .vBool true),
      ("method", .vStr "unknown")]))])
    (vmap [("enabled", .vBool true), ("method", .vStr "unknown")])
    "unknown" (by rfl) (by rfl) (by rfl) (by decide) (by decide)

/-- C9: the color-channel identity test is numeric, not textual — integer
values `red=1, green=1, blue=1` still compare equal to `(1.0, 1.0, 1.0)`
and yield no color-channel-mix stage. -/
theorem color_channel_int_identity :
    build_color_channel (vmap [("color_channels", .vMap (vmap
      [("red", .vInt 1), ("green", .vInt 1), ("blue", .vInt 1)]))]) =
      .ok none := by
  rfl

/-- C7: every stage enabled with an empty parameter section produces its
expression from exactly the documented default values; in particular the
eq-only default configuration assembles to
`eq=brightness=0.0:contrast=1.0:gamma=1.0:saturation=1.0`. -/
theorem stage_defaults :
    build_eq (vmap [("eq", .vMap (vmap [("enabled", .vBool true)]))]) =
      .ok (some "eq=brightness=0.0:contrast=1.0:gamma=1.0:saturation=1.0") ∧
    filter_chain (vmap [("eq", .vMap (vmap [("enabled", .vBool true)]))]) =
      .ok "eq=brightness=0.0:contrast=1.0:gamma=1.0:saturation=1.0" ∧
    build_unsharp (vmap [("sharpen", .vMap (vmap [("enabled", .vBool true)]))]) =
      .ok (some "unsharp=5:5:0.6:5:5:0.1") ∧
    build_extra_sharpen
        (vmap [("sharpen", .vMap (vmap [("extra_enabled", .vBool true)]))]) =
      .ok (some "unsharp=3:3:0.4") ∧
    build_deblur (vmap [("deblur", .vMap (vmap [("enabled", .vBool true)]))]) =
      .ok (some "convolution='-1 -1 -1 -1 9 -1 -1 -1 -1'") ∧
    build_denoise (vmap [("denoise", .vMap (vmap [("enabled", .vBool true)]))]) =
      .ok (some "hqdn3d=2.0:1.5:3.0:0.0") ∧
    build_blur (vmap [("blur", .vMap (vmap [("enabled", .vBool true)]))]) =
      .ok (some "boxblur=2") ∧
    build_grain (vmap [("grain", .vMap (vmap [("enabled", .vBool true)]))]) =
      .ok (some "noise=alls=4:allf=p") :=
  ⟨rfl, rfl, rfl, rfl, rfl, rfl, rfl, rfl⟩

/-- Core behaviour of the `unsharp_multi` branch of `build_deblur`. -/
theorem deblur_multi_core (cfg c : ValMap) (p : Int)
    (hs : getSection cfg "deblur" = .ok c)
    (he : truthy (c.getD "enabled" (.vBool false)) = true)
    (hm : c.getD "method" (.vStr "convolution") = .vStr "unsharp_multi")
    (hp : c.getD "passes" (.vInt 2) = .vInt p) :
    build_deblur cfg = .ok (some (String.intercalate ","
      (List.replicate p.toNat
        ("unsharp=" ++ render (c.getD "msize" (.vInt 5)) ++ ":"
          ++ render (c.getD "msize" (.vInt 5)) ++ ":"
          ++ render (c.getD "amount" (.vFloat ⟨10, 1⟩)))))) := by
  unfold build_deblur
  rw [hs]
  simp [he, hm, hp, isStrEq, asRangeArg]

/-- C8: with `deblur.enabled` truthy, method `"unsharp_multi"` and an
integer `passes` value `p` (default 2 when absent), the deblur stage is
exactly `p` repetitions of `unsharp=M:M:A` joined by commas, where the
msize value is used for both positions and the amount for the third. -/
theorem deblur_unsharp_multi (cfg c : ValMap) (p : Int)
    (hs : getSection cfg "deblur" = .ok c)
    (he : truthy (c.getD "enabled" (.vBool false)) = true)
    (hm : c.getD "method" (.vStr "convolution") = .vStr "unsharp_multi")
    (hp : c.getD "passes" (.vInt 2) = .vInt p) :
    build_deblur cfg = .ok (some (String.intercalate ","
      (List.replicate p.toNat
        ("unsharp=" ++ render (c.getD "msize" (.vInt 5)) ++ ":"
          ++ render (c.getD "msize" (.vInt 5)) ++ ":"
          ++ render (c.getD "amount" (.vFloat ⟨10, 1⟩)))))) :=
  deblur_multi_core cfg c p hs he hm hp

theorem deblur_unsharp_multi_witness :
    build_deblur (vmap [("deblur", .vMap (vmap [("enabled", .vBool true),
        ("method", .vStr "unsharp_multi"), ("passes", .vInt 3),
        ("amount", .vFloat ⟨10, 1⟩), ("msize", .vInt 5)]))]) =
      .ok (some "unsharp=5:5:1.0,unsharp=5:5:1.0,unsharp=5:5:1.0") ∧
    filter_chain (vmap [("deblur", .vMap (vmap [("enabled", .vBool true),
        ("method", .vStr "unsharp_multi"), ("passes", .vInt 3),
        ("amount", .vFloat ⟨10, 1⟩), ("msize", .vInt 5)]))]) =
      .ok "unsharp=5:5:1.0,unsharp=5:5:1.0,unsharp=5:5:1.0" := by
  constructor
  · have h := deblur_unsharp_multi
      (vmap [("deblur", .vMap (vmap [("enabled", .vBool true),
        ("method", .vStr "unsharp_multi"), ("passes", .vInt 3),
        ("amount", .vFloat ⟨10, 1⟩), ("msize", .vInt 5)]))])
      (vmap [("enabled", .vBool true), ("method", .vStr "unsharp_multi"),
        ("passes", .vInt 3), ("amount", .vFloat ⟨10, 1⟩), ("msize", .vInt 5)])
      3 (by rfl) (by rfl) (by rfl) (by rfl)
    rw [h]
    rfl
  · rfl

/-- C10: with `deblur.enabled` truthy, method `"unsharp_multi"` and a
non-positive integer `passes`, the deblur builder returns the empty
string, which `add_filter` drops without touching the accumulated list —
the deblur stage contributes nothing to the chain and no separator is
added. -/
theorem deblur_zero_passes (cfg c : ValMap) (p : Int)
    (hs : getSection cfg "deblur" = .ok c)
    (he : truthy (c.getD "enabled" (.vBool false)) = true)
    (hm : c.getD "method" (.vStr "convolution") = .vStr "unsharp_multi")
    (hp : c.getD "passes" (.vInt 2) = .vInt p)
    (hnp : p ≤ 0) :
    build_deblur cfg = .ok (some "") ∧
      ∀ fs, add_filter fs (some "") = fs := by
  constructor
  · have h := deblur_multi_core cfg c p hs he hm hp
    rw [h, Int.toNat_of_nonpos hnp]
    rfl
  · intro fs
    rfl

theorem deblur_zero_passes_witness :
    build_deblur (vmap [("deblur", .vMap (vmap [("enabled", .vBool true),
        ("method", .vStr "unsharp_multi"), ("passes", .vInt 0)]))]) =
      .ok (some "") ∧
    add_filter ["x"] (some "") = ["x"] ∧
    filter_chain (vmap [("deblur", .vMap (vmap [("enabled", .vBool true),
        ("method", .vStr "unsharp_multi"), ("passes", .vInt 0)]))]) =
      .ok "" := by
  have h := deblur_zero_passes
    (vmap [("deblur", .vMap (vmap [("enabled", .vBool true),
      ("method", .vStr "unsharp_multi"), ("passes", .vInt 0)]))])
    (vmap [("enabled", .vBool true), ("method", .vStr "unsharp_multi"),
      ("passes", .vInt 0)])
    0 (by rfl) (by rfl) (by rfl) (by rfl) (by decide)
  exact ⟨h.1, h.2 ["x"], by rfl⟩

/-! ## Separator hygiene: character-level lemmas -/

theorem toList_app (a b : String) : (a ++ b).toList = a.toList ++ b.toList :=
  String.data_append a b

theorem toList_ne_nil {s : String} (h : s ≠ "") : s.toList ≠ [] := by
  intro hl
  apply h
  cases s with
  | mk data =>
    simp only [String.toList] at hl
    subst hl
    rfl

theorem go_toList : ∀ (as : List String) (acc : String),
    (String.intercalate.go acc "," as).toList = acc.toList ++ tailC as := by
  intro as
  induction as with
  | nil => intro acc; simp [String.intercalate.go, tailC]
  | cons a t ih =>
    intro acc
    rw [show String.intercalate.go acc "," (a :: t) =
      String.intercalate.go (acc ++ "," ++ a) "," t from rfl]
    rw [ih]
    simp [tailC, toList_app]

/-- The characters of the assembled chain string are `chainC` of the
fragment list. -/
theorem intercalate_toList : ∀ fs, (String.intercalate "," fs).toList = chainC fs := by
  intro fs
  cases fs with
  | nil => rfl
  | cons a t =>
    rw [show String.intercalate "," (a :: t) = String.intercalate.go a "," t from rfl]
    rw [go_toList]
    rfl

theorem noLeadC_append (x y : List Char) (h : x ≠ []) :
    noLeadC (x ++ y) = noLeadC x := by
  cases x with
  | nil => exact absurd rfl h
  | cons c t => rfl

theorem noTrailC_append (x y : List Char) (h : y ≠ []) :
    noTrailC (x ++ y) = noTrailC y := by
  unfold noTrailC
  rw [List.reverse_append]
  exact noLeadC_append _ _ (by simpa using h)

theorem noTrailC_cons (c : Char) (l : List Char) (h : l ≠ []) :
    noTrailC (c :: l) = noTrailC l := by
  unfold noTrailC
  rw [List.reverse_cons]
  exact noLeadC_append _ _ (by simpa using h)

theorem noDouble_cons_cons (c d : Char) (t : List Char) :
    noDouble (c :: d :: t) = ((!(c == ',' && d == ',')) && noDouble (d :: t)) := by
  rfl

theorem noDouble_comma_cons (r : List Char) (hl : noLeadC r = true)
    (hd : noDouble r = true) : noDouble (',' :: r) = true := by
  cases r with
  | nil => rfl
  | cons d t =>
    rw [noDouble_cons_cons]
    simp only [noLeadC] at hl
    simp [hl, hd]

theorem noDouble_append_sep : ∀ (x r : List Char), noDouble x = true →
    noTrailC x = true → noLeadC r = true → noDouble r = true →
    noDouble (x ++ ',' :: r) = true := by
  intro x
  induction x with
  | nil =>
    intro r _ _ hl hd
    simpa using noDouble_comma_cons r hl hd
  | cons c t ih =>
    intro r hx htr hl hd
    cases t with
    | nil =>
      have hc : (c == ',') = false := by
        simpa [noTrailC, noLeadC] using htr
      simp only [List.cons_append, List.nil_append]
      rw [noDouble_cons_cons]
      simp [hc, noDouble_comma_cons r hl hd]
    | cons d t2 =>
      rw [noDouble_cons_cons, Bool.and_eq_true] at hx
      obtain ⟨hpair, htail⟩ := hx
      have htr2 : noTrailC (d :: t2) = true := by
        rwa [noTrailC_cons c (d :: t2) (by simp)] at htr
      have hrec := ih r htail htr2 hl hd
      simp only [List.cons_append] at hrec ⊢
      rw [noDouble_cons_cons]
      simp [hpair, hrec]

theorem chainC_cons_ne_nil (b : String) (t : List String) (hb : b ≠ "") :
    chainC (b :: t) ≠ [] := by
  simp only [chainC]
  intro hc
  exact toList_ne_nil hb (List.append_eq_nil.mp hc).1

theorem chainC_cons_cons (a b : String) (t : List String) :
    chainC (a :: b :: t) = a.toList ++ ',' :: chainC (b :: t) := rfl

theorem chainC_noTrail : ∀ fs : List String,
    (∀ f ∈ fs, f ≠ "" ∧ noTrailC f.toList = true) →
    noTrailC (chainC fs) = true := by
  intro fs
  induction fs with
  | nil => intro _; rfl
  | cons a as ih =>
    intro h
    have ha := h a (List.mem_cons_self a as)
    cases as with
    | nil =>
      simp only [chainC, tailC, List.append_nil]
      exact ha.2
    | cons b t =>
      have hrest := ih (fun f hf => h f (List.mem_cons_of_mem a hf))
      have hb := h b (List.mem_cons_of_mem a (List.mem_cons_self b t))
      rw [chainC_cons_cons]
      rw [noTrailC_append _ _ (by simp)]
      rw [noTrailC_cons _ _ (chainC_cons_ne_nil b t hb.1)]
      exact hrest

theorem chainC_good : ∀ fs : List String,
    (∀ f ∈ fs, f ≠ "" ∧ noTrailC f.toList = true ∧
      noLeadC f.toList = true ∧ noDouble f.toList = true) →
    noLeadC (chainC fs) = true ∧ noTrailC (chainC fs) = true ∧
      noDouble (chainC fs) = true := by
  intro fs
  induction fs with
  | nil => intro _; exact ⟨rfl, rfl, rfl⟩
  | cons a as ih =>
    intro h
    obtain ⟨hane, hatr, hald, hadb⟩ := h a (List.mem_cons_self a as)
    cases as with
    | nil =>
      simp only [chainC, tailC, List.append_nil]
      exact ⟨hald, hatr, hadb⟩
    | cons b t =>
      obtain ⟨hrl, hrt, hrd⟩ := ih (fun f hf => h f (List.mem_cons_of_mem a hf))
      have hb := h b (List.mem_cons_of_mem a (List.mem_cons_self b t))
      have hne := chainC_cons_ne_nil b t hb.1
      refine ⟨?_, ?_, ?_⟩
      · rw [chainC_cons_cons]
        rw [noLeadC_append _ _ (toList_ne_nil hane)]
        exact hald
      · rw [chainC_cons_cons]
        rw [noTrailC_append _ _ (by simp), noTrailC_cons _ _ hne]
        exact hrt
      · rw [chainC_cons_cons]
        exact noDouble_append_sep a.toList (chainC (b :: t)) hadb hatr hrl hrd

theorem noLeadC_dropWhileComma : ∀ l : List Char,
    noLeadC (List.dropWhile (fun c => c == ',') l) = true := by
  intro l
  induction l with
  | nil => rfl
  | cons c t ih =>
    rw [List.dropWhile_cons]
    by_cases hc : (c == ',') = true
    · simp only [hc, if_true]
      exact ih
    · simp only [hc, Bool.false_eq_true, if_false]
      simp only [noLeadC]
      simpa using hc

theorem rstripComma_noTrail (s : String) :
    noTrailC (rstripComma s).toList = true := by
  unfold rstripComma noTrailC
  rw [show (String.mk ((s.toList.reverse.dropWhile (fun c => c == ',')).reverse)).toList
    = (s.toList.reverse.dropWhile (fun c => c == ',')).reverse from rfl]
  rw [List.reverse_reverse]
  exact noLeadC_dropWhileComma _

/-- A fragment that survives normalization is non-empty and has no
trailing comma. -/
theorem normFrag_good {o : Option String} {t : String}
    (h : normFrag o = some t) : t ≠ "" ∧ noTrailC t.toList = true := by
  cases o with
  | none => exact absurd h (by simp [normFrag])
  | some s =>
    simp only [normFrag] at h
    by_cases hs : s = ""
    · simp [hs] at h
    · simp only [hs, if_false] at h
      by_cases ht : rstripComma (pyStrip s) = ""
      · simp [ht] at h
      · simp only [ht, if_false, Option.some.injEq] at h
        subst h
        exact ⟨ht, rstripComma_noTrail _⟩

/-- Every fragment accumulated by the assembler is non-empty and free of
trailing commas. -/
theorem buildFilters_frag_good {cfg : ValMap} {fs : List String}
    (h : buildFilters cfg = .ok fs) :
    ∀ f ∈ fs, f ≠ "" ∧ noTrailC f.toList = true := by
  obtain ⟨outs, _, h2⟩ := buildFilters_ok h
  subst h2
  intro f hf
  obtain ⟨o, _, ho⟩ := List.mem_filterMap.mp hf
  exact normFrag_good ho

/-- C4 (counterexample): the claim that the assembled chain never has a
leading, trailing, or doubled separator fails once `custom_filters`
supplies pre-formed strings containing commas: `[",a"]` assembles to a
chain with a leading comma, and `["a,,b"]` to one with a doubled comma. -/
theorem chain_seps_counterexample :
    filter_chain (vmap [("custom_filters", .vList (vlist [.vStr ",a"]))]) =
      .ok ",a" ∧
    noLeadC (String.toList ",a") = false ∧
    filter_chain (vmap [("custom_filters", .vList (vlist [.vStr "a,,b"]))]) =
      .ok "a,,b" ∧
    noDouble (String.toList "a,,b") = false :=
  ⟨rfl, by decide, rfl, by decide⟩

/-- C4 (amended): the assembled chain never ends with a comma; and it
also has no leading or doubled comma provided every accumulated fragment
(in particular everything contributed by `custom_filters` entries or by
string-valued parameters) itself starts with no comma and contains no
adjacent commas.  Non-emptiness and no-trailing-comma of each fragment
need no proviso: `add_filter` guarantees them. -/
theorem chain_seps_amended (cfg : ValMap) (fs : List String) (chain : String)
    (hf : buildFilters cfg = .ok fs)
    (hc : filter_chain cfg = .ok chain) :
    noTrailC chain.toList = true ∧
    ((∀ f ∈ fs, noLeadC f.toList = true ∧ noDouble f.toList = true) →
      okSeps chain = true) := by
  have hgood := buildFilters_frag_good hf
  unfold filter_chain at hc
  rw [hf] at hc
  simp only [Except.ok.injEq] at hc
  subst hc
  constructor
  · rw [intercalate_toList]
    exact chainC_noTrail fs hgood
  · intro hld
    unfold okSeps
    rw [intercalate_toList]
    have hall : ∀ f ∈ fs, f ≠ "" ∧ noTrailC f.toList = true ∧
        noLeadC f.toList = true ∧ noDouble f.toList = true :=
      fun f hf2 => ⟨(hgood f hf2).1, (hgood f hf2).2,
        (hld f hf2).1, (hld f hf2).2⟩
    obtain ⟨h1, h2, h3⟩ := chainC_good fs hall
    simp [h1, h2, h3]

theorem chain_seps_amended_witness :
    noTrailC (String.toList
      "eq=brightness=0.0:contrast=1.0:gamma=1.0:saturation=1.0,boxblur=2") = true ∧
    okSeps "eq=brightness=0.0:contrast=1.0:gamma=1.0:saturation=1.0,boxblur=2" = true := by
  have h := chain_seps_amended
    (vmap [("eq", .vMap (vmap [("enabled", .vBool true)])),
      ("blur", .vMap (vmap [("enabled", .vBool true)]))])
    ["eq=brightness=0.0:contrast=1.0:gamma=1.0:saturation=1.0", "boxblur=2"]
    "eq=brightness=0.0:contrast=1.0:gamma=1.0:saturation=1.0,boxblur=2"
    (by rfl) (by rfl)
  exact ⟨h.1, h.2 (by decide)⟩
